import Mathlib

/-
  Verification of the Koch-curve generator of `src/app.py`.

  The geometric core (`koch_curve`, `koch_two_sides`, `koch_snowflake`) is
  embedded over the real numbers: Python floats become `ℝ`, `math.cos` and
  `math.sin` become `Real.cos` / `Real.sin`, `math.radians x = x * π / 180`,
  tuples become `ℝ × ℝ`, Python lists become `List`, and the slice `[:-1]`
  becomes `List.dropLast`.
-/

namespace KochApp

noncomputable section

/-- `math.radians`: degrees to radians, `x * π / 180`. -/
def radians (x : ℝ) : ℝ := x * Real.pi / 180

/-- Advancing a point by distance `d` at angle `θ` (degrees):
`(p.x + d*cos(radians θ), p.y + d*sin(radians θ))`.  This is the expression
the Python code inlines for the order-0 endpoint and for each of the anchor
points `b`, `c`, `d` (and the unused `e`). -/
def advance (p : ℝ × ℝ) (d θ : ℝ) : ℝ × ℝ :=
  (p.1 + d * Real.cos (radians θ), p.2 + d * Real.sin (radians θ))

/-- `koch_curve(order, length, start, angle_deg)` from `src/app.py` lines 14-35.
The recursive case computes `seg = length / 3`, the anchors
`a = start`, `b = advance a seg angle`, `c = advance b seg (angle + 60)`,
`d = advance c seg (angle - 60)` (inlined below), recurses on the four legs
and concatenates, dropping the last point of each of the first three legs. -/
def koch_curve : ℕ → ℝ → ℝ × ℝ → ℝ → List (ℝ × ℝ)
  | 0, length, start, angle_deg => [start, advance start length angle_deg]
  | n + 1, length, start, angle_deg =>
      (koch_curve n (length / 3) start angle_deg).dropLast ++
      (koch_curve n (length / 3) (advance start (length / 3) angle_deg)
        (angle_deg + 60)).dropLast ++
      (koch_curve n (length / 3)
        (advance (advance start (length / 3) angle_deg) (length / 3) (angle_deg + 60))
        (angle_deg - 60)).dropLast ++
      koch_curve n (length / 3)
        (advance (advance (advance start (length / 3) angle_deg) (length / 3)
          (angle_deg + 60)) (length / 3) (angle_deg - 60)) angle_deg

/-- `koch_two_sides(order, length)` from `src/app.py` lines 37-42. -/
def koch_two_sides (order : ℕ) (length : ℝ) : List (ℝ × ℝ) × List (ℝ × ℝ) :=
  (koch_curve order length (-(length / 2), 0) 0, koch_curve order length (0, 0) 60)

/-- `koch_snowflake(order, length)` from `src/app.py` lines 44-52. -/
def koch_snowflake (order : ℕ) (length : ℝ) : List (List (ℝ × ℝ)) :=
  [koch_curve order length (-(length / 2), 0) 0,
   koch_curve order length (length / 2, 0) 120,
   koch_curve order length (0, (Real.sqrt 3 / 2) * length) (-120)]

/-- Point count of a Koch curve: `4 ^ order + 1`. -/
lemma koch_curve_length (order : ℕ) (L : ℝ) (s : ℝ × ℝ) (θ : ℝ) :
    (koch_curve order L s θ).length = 4 ^ order + 1 := by
  induction order generalizing L s θ with
  | zero => rfl
  | succ n ih =>
      simp only [koch_curve, List.length_append, List.length_dropLast, ih, pow_succ]
      generalize (4 : ℕ) ^ n = m
      omega

/-- Every Koch curve has at least 2 points. -/
lemma two_le_koch_curve_length (order : ℕ) (L : ℝ) (s : ℝ × ℝ) (θ : ℝ) :
    2 ≤ (koch_curve order L s θ).length := by
  rw [koch_curve_length]
  have h4 : 0 < (4 : ℕ) ^ order := pow_pos (by norm_num) order
  omega

lemma head_dropLast_of_two_le {α : Type _} :
    ∀ (l : List α), 2 ≤ l.length → l.dropLast.head? = l.head?
  | [], h => by simp at h
  | [a], h => by simp at h
  | a :: b :: t, _ => by rw [List.dropLast_cons₂]; rfl

/-- The first point of a Koch curve is the start point. -/
lemma koch_curve_head (order : ℕ) (L : ℝ) (s : ℝ × ℝ) (θ : ℝ) :
    (koch_curve order L s θ).head? = some s := by
  induction order generalizing L s θ with
  | zero => rfl
  | succ n ih =>
      have h2 := two_le_koch_curve_length n (L / 3) s θ
      simp only [koch_curve, List.head?_append, head_dropLast_of_two_le _ h2, ih,
        Option.or_some]

/-- The four anchor advances of one subdivision step compose to a single
advance by the full length: `cos(x+π/3) + cos(x-π/3) = cos x` and likewise
for `sin`. -/
lemma advance_four (s : ℝ × ℝ) (L θ : ℝ) :
    advance (advance (advance (advance s (L / 3) θ) (L / 3) (θ + 60)) (L / 3) (θ - 60))
      (L / 3) θ = advance s L θ := by
  have h1 : radians (θ + 60) = radians θ + Real.pi / 3 := by unfold radians; ring
  have h2 : radians (θ - 60) = radians θ - Real.pi / 3 := by unfold radians; ring
  simp only [advance, h1, h2, Real.cos_add, Real.cos_sub, Real.sin_add, Real.sin_sub,
    Real.cos_pi_div_three, Real.sin_pi_div_three, Prod.mk.injEq]
  constructor <;> ring

/-- The last point of a Koch curve is the start advanced by the whole length. -/
lemma koch_curve_last (order : ℕ) (L : ℝ) (s : ℝ × ℝ) (θ : ℝ) :
    (koch_curve order L s θ).getLast? = some (advance s L θ) := by
  induction order generalizing L s θ with
  | zero => rfl
  | succ n ih =>
      simp only [koch_curve, List.getLast?_append, ih, Option.or_some]
      rw [advance_four]

/-- C1: for every order ≥ 0 and every length, start point and angle,
`koch_curve` returns a polyline with exactly `4 ^ order + 1` points. -/
theorem koch_curve_point_count (order : ℕ) (L : ℝ) (s : ℝ × ℝ) (θ : ℝ) :
    (koch_curve order L s θ).length = 4 ^ order + 1 :=
  koch_curve_length order L s θ

/-- C2: for positive length, the first point of `koch_curve` equals `start`
and the last point equals `start` advanced by `length` at `angle_deg`,
i.e. `(start.x + length*cos(angle_deg*π/180), start.y + length*sin(angle_deg*π/180))`,
exactly over real arithmetic. -/
theorem koch_curve_endpoints (order : ℕ) (L : ℝ) (s : ℝ × ℝ) (θ : ℝ) (hL : 0 < L) :
    (koch_curve order L s θ).head? = some s ∧
    (koch_curve order L s θ).getLast? =
      some (s.1 + L * Real.cos (θ * Real.pi / 180), s.2 + L * Real.sin (θ * Real.pi / 180)) :=
  ⟨koch_curve_head order L s θ, koch_curve_last order L s θ⟩

/-- Witness for C2 at order 0, length 1, start (0,0), angle 0. -/
theorem koch_curve_endpoints_witness :
    (0 : ℝ) < 1 ∧
    ((koch_curve 0 1 (0, 0) 0).head? = some (0, 0) ∧
     (koch_curve 0 1 (0, 0) 0).getLast? =
       some ((0 : ℝ) + 1 * Real.cos ((0 : ℝ) * Real.pi / 180),
             (0 : ℝ) + 1 * Real.sin ((0 : ℝ) * Real.pi / 180))) :=
  ⟨by norm_num, koch_curve_endpoints 0 1 (0, 0) 0 (by norm_num)⟩

/-- C3: for order n > 0, the curve is the concatenation of the four
order-(n-1) sub-curves of length `length/3` at the anchors
`a = start`, `b = advance a (L/3) θ`, `c = advance b (L/3) (θ+60)`,
`d = advance c (L/3) (θ-60)` with angles `θ, θ+60, θ-60, θ`, dropping the
last point of each of the first three legs, and each dropped point equals
the first point of the following sub-curve. -/
theorem koch_curve_recursive_structure (n : ℕ) (L : ℝ) (s : ℝ × ℝ) (θ : ℝ) (hn : 0 < n) :
    koch_curve n L s θ =
      (koch_curve (n - 1) (L / 3) s θ).dropLast ++
      (koch_curve (n - 1) (L / 3) (advance s (L / 3) θ) (θ + 60)).dropLast ++
      (koch_curve (n - 1) (L / 3)
        (advance (advance s (L / 3) θ) (L / 3) (θ + 60)) (θ - 60)).dropLast ++
      koch_curve (n - 1) (L / 3)
        (advance (advance (advance s (L / 3) θ) (L / 3) (θ + 60)) (L / 3) (θ - 60)) θ ∧
    (koch_curve (n - 1) (L / 3) s θ).getLast? =
      (koch_curve (n - 1) (L / 3) (advance s (L / 3) θ) (θ + 60)).head? ∧
    (koch_curve (n - 1) (L / 3) (advance s (L / 3) θ) (θ + 60)).getLast? =
      (koch_curve (n - 1) (L / 3)
        (advance (advance s (L / 3) θ) (L / 3) (θ + 60)) (θ - 60)).head? ∧
    (koch_curve (n - 1) (L / 3)
        (advance (advance s (L / 3) θ) (L / 3) (θ + 60)) (θ - 60)).getLast? =
      (koch_curve (n - 1) (L / 3)
        (advance (advance (advance s (L / 3) θ) (L / 3) (θ + 60)) (L / 3) (θ - 60)) θ).head? := by
  match n, hn with
  | m + 1, _ =>
    simp only [Nat.add_sub_cancel]
    refine ⟨rfl, ?_, ?_, ?_⟩
    · rw [koch_curve_last, koch_curve_head]
    · rw [koch_curve_last, koch_curve_head]
    · rw [koch_curve_last, koch_curve_head]

/-- Witness for C3 at order 1, length 1, start (0,0), angle 0. -/
theorem koch_curve_recursive_structure_witness :
    0 < 1 ∧
    (koch_curve 1 1 (0, 0) 0 =
      (koch_curve (1 - 1) (1 / 3) (0, 0) 0).dropLast ++
      (koch_curve (1 - 1) (1 / 3) (advance (0, 0) (1 / 3) 0) (0 + 60)).dropLast ++
      (koch_curve (1 - 1) (1 / 3)
        (advance (advance (0, 0) (1 / 3) 0) (1 / 3) (0 + 60)) (0 - 60)).dropLast ++
      koch_curve (1 - 1) (1 / 3)
        (advance (advance (advance (0, 0) (1 / 3) 0) (1 / 3) (0 + 60)) (1 / 3) (0 - 60)) 0 ∧
    (koch_curve (1 - 1) (1 / 3) (0, 0) 0).getLast? =
      (koch_curve (1 - 1) (1 / 3) (advance (0, 0) (1 / 3) 0) (0 + 60)).head? ∧
    (koch_curve (1 - 1) (1 / 3) (advance (0, 0) (1 / 3) 0) (0 + 60)).getLast? =
      (koch_curve (1 - 1) (1 / 3)
        (advance (advance (0, 0) (1 / 3) 0) (1 / 3) (0 + 60)) (0 - 60)).head? ∧
    (koch_curve (1 - 1) (1 / 3)
        (advance (advance (0, 0) (1 / 3) 0) (1 / 3) (0 + 60)) (0 - 60)).getLast? =
      (koch_curve (1 - 1) (1 / 3)
        (advance (advance (advance (0, 0) (1 / 3) 0) (1 / 3) (0 + 60)) (1 / 3) (0 - 60))
        0).head?) :=
  ⟨by norm_num, koch_curve_recursive_structure 1 1 (0, 0) 0 (by norm_num)⟩

lemma radians_angle_120 : radians 120 = Real.pi - Real.pi / 3 := by unfold radians; ring

lemma radians_angle_neg120 : radians (-120) = -(Real.pi - Real.pi / 3) := by
  unfold radians; ring

lemma cos_radians_120 : Real.cos (radians 120) = -(1 / 2) := by
  rw [radians_angle_120, Real.cos_pi_sub, Real.cos_pi_div_three]

lemma sin_radians_120 : Real.sin (radians 120) = Real.sqrt 3 / 2 := by
  rw [radians_angle_120, Real.sin_pi_sub, Real.sin_pi_div_three]

lemma cos_radians_neg120 : Real.cos (radians (-120)) = -(1 / 2) := by
  rw [radians_angle_neg120, Real.cos_neg, Real.cos_pi_sub, Real.cos_pi_div_three]

lemma sin_radians_neg120 : Real.sin (radians (-120)) = -(Real.sqrt 3 / 2) := by
  rw [radians_angle_neg120, Real.sin_neg, Real.sin_pi_sub, Real.sin_pi_div_three]

lemma cos_radians_zero : Real.cos (radians 0) = 1 := by
  rw [show radians 0 = 0 from by unfold radians; ring, Real.cos_zero]

lemma sin_radians_zero : Real.sin (radians 0) = 0 := by
  rw [show radians 0 = 0 from by unfold radians; ring, Real.sin_zero]

/-- C4: the three sides of `koch_snowflake` close up: the last point of side i
equals the first point of side (i+1) mod 3, exactly over real arithmetic. -/
theorem koch_snowflake_closed (order : ℕ) (L : ℝ) (hL : 0 < L) :
    ((koch_snowflake order L).getD 0 []).getLast? =
      ((koch_snowflake order L).getD 1 []).head? ∧
    ((koch_snowflake order L).getD 1 []).getLast? =
      ((koch_snowflake order L).getD 2 []).head? ∧
    ((koch_snowflake order L).getD 2 []).getLast? =
      ((koch_snowflake order L).getD 0 []).head? := by
  refine ⟨?_, ?_, ?_⟩
  · show (koch_curve order L (-(L / 2), 0) 0).getLast? =
      (koch_curve order L (L / 2, 0) 120).head?
    rw [koch_curve_last, koch_curve_head]
    refine congrArg some ?_
    simp only [advance, cos_radians_zero, sin_radians_zero, Prod.mk.injEq]
    constructor <;> ring
  · show (koch_curve order L (L / 2, 0) 120).getLast? =
      (koch_curve order L (0, (Real.sqrt 3 / 2) * L) (-120)).head?
    rw [koch_curve_last, koch_curve_head]
    refine congrArg some ?_
    simp only [advance, cos_radians_120, sin_radians_120, Prod.mk.injEq]
    constructor <;> ring
  · show (koch_curve order L (0, (Real.sqrt 3 / 2) * L) (-120)).getLast? =
      (koch_curve order L (-(L / 2), 0) 0).head?
    rw [koch_curve_last, koch_curve_head]
    refine congrArg some ?_
    simp only [advance, cos_radians_neg120, sin_radians_neg120, Prod.mk.injEq]
    constructor <;> ring

/-- Witness for C4 at order 0, length 1. -/
theorem koch_snowflake_closed_witness :
    (0 : ℝ) < 1 ∧
    (((koch_snowflake 0 1).getD 0 []).getLast? = ((koch_snowflake 0 1).getD 1 []).head? ∧
     ((koch_snowflake 0 1).getD 1 []).getLast? = ((koch_snowflake 0 1).getD 2 []).head? ∧
     ((koch_snowflake 0 1).getD 2 []).getLast? = ((koch_snowflake 0 1).getD 0 []).head?) :=
  ⟨by norm_num, koch_snowflake_closed 0 1 (by norm_num)⟩

lemma advance_add (p v : ℝ × ℝ) (d φ : ℝ) :
    advance (p + v) d φ = advance p d φ + v := by
  simp only [advance, Prod.ext_iff, Prod.fst_add, Prod.snd_add]
  constructor <;> ring

/-- Translation equivariance of the Koch curve. -/
lemma koch_curve_translate (order : ℕ) (L : ℝ) (s v : ℝ × ℝ) (θ : ℝ) :
    koch_curve order L (s + v) θ = (koch_curve order L s θ).map (fun p => p + v) := by
  induction order generalizing L s θ with
  | zero => simp [koch_curve, advance_add]
  | succ n ih =>
      simp only [koch_curve, advance_add, ih, List.map_append, List.map_dropLast]

/-- Scaling the length by `k` scales the whole curve about `start`. -/
lemma koch_curve_scale (order : ℕ) (L k : ℝ) (s : ℝ × ℝ) (θ : ℝ) :
    koch_curve order (k * L) s θ =
      (koch_curve order L s θ).map (fun p => s + k • (p - s)) := by
  induction order generalizing L s θ with
  | zero =>
      have h1 : s + k • (s - s) = s := by simp
      have h2 : s + k • (advance s L θ - s) = advance s (k * L) θ := by
        simp only [advance, Prod.ext_iff, Prod.fst_add, Prod.snd_add, Prod.fst_sub,
          Prod.snd_sub, Prod.smul_fst, Prod.smul_snd, smul_eq_mul]
        constructor <;> ring
      simp only [koch_curve, List.map_cons, List.map_nil, h1, h2]
  | succ n ih =>
      have key : ∀ (seg : ℝ) (p : ℝ × ℝ) (φ : ℝ),
          koch_curve n (k * seg) (s + k • (p - s)) φ =
            (koch_curve n seg p φ).map (fun r => s + k • (r - s)) := by
        intro seg p φ
        have hsplit : s + k • (p - s) = p + (s + k • (p - s) - p) := by abel
        rw [hsplit, koch_curve_translate, ih, List.map_map]
        have hfun : ((fun r => r + (s + k • (p - s) - p)) ∘ fun r => p + k • (r - p)) =
            fun r => s + k • (r - s) := by
          funext r
          simp only [Function.comp_apply, smul_sub]
          abel
        rw [hfun]
      simp only [koch_curve]
      have hseg : k * L / 3 = k * (L / 3) := by ring
      rw [hseg]
      have hb : advance s (k * (L / 3)) θ = s + k • (advance s (L / 3) θ - s) := by
        simp only [advance, Prod.ext_iff, Prod.fst_add, Prod.snd_add, Prod.fst_sub,
          Prod.snd_sub, Prod.smul_fst, Prod.smul_snd, smul_eq_mul]
        constructor <;> ring
      have hc : advance (s + k • (advance s (L / 3) θ - s)) (k * (L / 3)) (θ + 60) =
          s + k • (advance (advance s (L / 3) θ) (L / 3) (θ + 60) - s) := by
        simp only [advance, Prod.ext_iff, Prod.fst_add, Prod.snd_add, Prod.fst_sub,
          Prod.snd_sub, Prod.smul_fst, Prod.smul_snd, smul_eq_mul]
        constructor <;> ring
      have hd : advance (s + k • (advance (advance s (L / 3) θ) (L / 3) (θ + 60) - s))
            (k * (L / 3)) (θ - 60) =
          s + k • (advance (advance (advance s (L / 3) θ) (L / 3) (θ + 60)) (L / 3)
            (θ - 60) - s) := by
        simp only [advance, Prod.ext_iff, Prod.fst_add, Prod.snd_add, Prod.fst_sub,
          Prod.snd_sub, Prod.smul_fst, Prod.smul_snd, smul_eq_mul]
        constructor <;> ring
      rw [hb, hc, hd, key, key, key, ih]
      simp only [List.map_append, List.map_dropLast]

/-- C5: linear scaling: each point of `koch_curve order (k*L) start θ` equals
`start + k * (p - start)` componentwise, where `p` is the corresponding point
of `koch_curve order L start θ`. -/
theorem koch_curve_linear_scaling (order : ℕ) (L k : ℝ) (s : ℝ × ℝ) (θ : ℝ)
    (hk : 0 < k) :
    koch_curve order (k * L) s θ =
      (koch_curve order L s θ).map
        (fun p => (s.1 + k * (p.1 - s.1), s.2 + k * (p.2 - s.2))) := by
  rw [koch_curve_scale order L k s θ]
  have hfun : (fun p : ℝ × ℝ => s + k • (p - s)) =
      fun p : ℝ × ℝ => (s.1 + k * (p.1 - s.1), s.2 + k * (p.2 - s.2)) := by
    funext p
    simp only [Prod.ext_iff, Prod.fst_add, Prod.snd_add, Prod.fst_sub, Prod.snd_sub,
      Prod.smul_fst, Prod.smul_snd, smul_eq_mul]
    constructor <;> ring
  rw [hfun]

/-- Witness for C5 at order 1, length 1, k = 2, start (0,0), angle 0. -/
theorem koch_curve_linear_scaling_witness :
    (0 : ℝ) < 2 ∧
    koch_curve 1 (2 * 1) (0, 0) 0 =
      (koch_curve 1 1 (0, 0) 0).map
        (fun p => (((0, 0) : ℝ × ℝ).1 + 2 * (p.1 - ((0, 0) : ℝ × ℝ).1),
                   ((0, 0) : ℝ × ℝ).2 + 2 * (p.2 - ((0, 0) : ℝ × ℝ).2))) :=
  ⟨by norm_num, koch_curve_linear_scaling 1 1 2 (0, 0) 0 (by norm_num)⟩

/-- Step-indexed (fuel-limited) interpreter of the recursion of `koch_curve`:
`none` means the call stack budget `fuel` was exhausted before the base case
was reached.  Used to state that the recursion depth is bounded by `order`. -/
def koch_curve_fuel : ℕ → ℕ → ℝ → ℝ × ℝ → ℝ → Option (List (ℝ × ℝ))
  | 0, _, _, _, _ => none
  | _ + 1, 0, length, start, angle_deg => some [start, advance start length angle_deg]
  | f + 1, n + 1, length, start, angle_deg =>
      match koch_curve_fuel f n (length / 3) start angle_deg,
            koch_curve_fuel f n (length / 3) (advance start (length / 3) angle_deg)
              (angle_deg + 60),
            koch_curve_fuel f n (length / 3)
              (advance (advance start (length / 3) angle_deg) (length / 3)
                (angle_deg + 60)) (angle_deg - 60),
            koch_curve_fuel f n (length / 3)
              (advance (advance (advance start (length / 3) angle_deg) (length / 3)
                (angle_deg + 60)) (length / 3) (angle_deg - 60)) angle_deg with
      | some l1, some l2, some l3, some l4 =>
          some (l1.dropLast ++ l2.dropLast ++ l3.dropLast ++ l4)
      | _, _, _, _ => none

/-- C6: the recursion terminates with recursion depth bounded by `order`:
with any stack budget exceeding `order`, the fuel-limited interpreter
succeeds and computes the total function `koch_curve` (which is itself
defined by structural recursion on `order`). -/
theorem koch_curve_depth_bounded (fuel order : ℕ) (L : ℝ) (s : ℝ × ℝ) (θ : ℝ)
    (h : order < fuel) :
    koch_curve_fuel fuel order L s θ = some (koch_curve order L s θ) := by
  induction fuel generalizing order L s θ with
  | zero => exact absurd h (Nat.not_lt_zero _)
  | succ f ih =>
      match order with
      | 0 => rfl
      | n + 1 =>
          have hn : n < f := Nat.lt_of_succ_lt_succ h
          simp only [koch_curve_fuel]
          rw [ih n _ _ _ hn, ih n _ _ _ hn, ih n _ _ _ hn, ih n _ _ _ hn]
          rfl

/-- Witness for C6: order 1 with fuel 2. -/
theorem koch_curve_depth_bounded_witness :
    1 < 2 ∧ koch_curve_fuel 2 1 1 (0, 0) 0 = some (koch_curve 1 1 (0, 0) 0) :=
  ⟨by norm_num, koch_curve_depth_bounded 2 1 1 (0, 0) 0 (by norm_num)⟩

/-- Fuel-limited interpreter of `koch_curve` with the order as a (signed)
Python integer: `order == 0` is the only base case, every other order
recurses on `order - 1`, exactly as the Python code does.  For negative
orders the base case is never reached, so every budget is exhausted
(`none`): the call raises without producing any output. -/
def koch_curve_int_fuel : ℕ → ℤ → ℝ → ℝ × ℝ → ℝ → Option (List (ℝ × ℝ))
  | 0, _, _, _, _ => none
  | f + 1, order, length, start, angle_deg =>
      if order = 0 then some [start, advance start length angle_deg]
      else
        match koch_curve_int_fuel f (order - 1) (length / 3) start angle_deg,
              koch_curve_int_fuel f (order - 1) (length / 3)
                (advance start (length / 3) angle_deg) (angle_deg + 60),
              koch_curve_int_fuel f (order - 1) (length / 3)
                (advance (advance start (length / 3) angle_deg) (length / 3)
                  (angle_deg + 60)) (angle_deg - 60),
              koch_curve_int_fuel f (order - 1) (length / 3)
                (advance (advance (advance start (length / 3) angle_deg) (length / 3)
                  (angle_deg + 60)) (length / 3) (angle_deg - 60)) angle_deg with
        | some l1, some l2, some l3, some l4 =>
            some (l1.dropLast ++ l2.dropLast ++ l3.dropLast ++ l4)
        | _, _, _, _ => none

lemma koch_curve_int_fuel_neg :
    ∀ (fuel : ℕ) (order : ℤ), order < 0 → ∀ (L : ℝ) (s : ℝ × ℝ) (θ : ℝ),
      koch_curve_int_fuel fuel order L s θ = none := by
  intro fuel
  induction fuel with
  | zero => intro order _ L s θ; rfl
  | succ f ih =>
      intro order h L s θ
      have h0 : ¬order = 0 := by omega
      simp only [koch_curve_int_fuel, if_neg h0]
      rw [ih (order - 1) (by omega)]

lemma koch_curve_int_fuel_nonneg :
    ∀ (fuel : ℕ) (order : ℤ), 0 ≤ order → order.toNat < fuel →
      ∀ (L : ℝ) (s : ℝ × ℝ) (θ : ℝ),
        koch_curve_int_fuel fuel order L s θ = some (koch_curve order.toNat L s θ) := by
  intro fuel
  induction fuel with
  | zero => intro order _ h; exact absurd h (Nat.not_lt_zero _)
  | succ f ih =>
      intro order hpos h L s θ
      by_cases h0 : order = 0
      · subst h0; rfl
      · have h1 : 0 ≤ order - 1 := by omega
        have h2 : (order - 1).toNat < f := by omega
        have h3 : order.toNat = (order - 1).toNat + 1 := by omega
        simp only [koch_curve_int_fuel, if_neg h0]
        rw [ih (order - 1) h1 h2, ih (order - 1) h1 h2, ih (order - 1) h1 h2,
          ih (order - 1) h1 h2, h3]
        rfl

/-- C7: on an invalid (negative) order the recursion never produces output:
every stack budget is exhausted and the error signal propagates (`none` for
all fuel), with no partial polyline ever returned; on every valid
(non-negative) order the call instead completes deterministically with the
value of the total function `koch_curve`. -/
theorem koch_curve_invalid_order (order : ℤ) (L : ℝ) (s : ℝ × ℝ) (θ : ℝ) :
    (order < 0 → ∀ fuel : ℕ, koch_curve_int_fuel fuel order L s θ = none) ∧
    (0 ≤ order → ∀ fuel : ℕ, order.toNat < fuel →
      koch_curve_int_fuel fuel order L s θ = some (koch_curve order.toNat L s θ)) :=
  ⟨fun h fuel => koch_curve_int_fuel_neg fuel order h L s θ,
   fun h fuel hf => koch_curve_int_fuel_nonneg fuel order h hf L s θ⟩

/-- Witness for C7: order -1 yields no output at fuel 3; order 2 succeeds. -/
theorem koch_curve_invalid_order_witness :
    koch_curve_int_fuel 3 (-1) 1 (0, 0) 0 = none ∧
    koch_curve_int_fuel 3 2 1 (0, 0) 0 = some (koch_curve (Int.toNat 2) 1 (0, 0) 0) :=
  ⟨(koch_curve_invalid_order (-1) 1 (0, 0) 0).1 (by decide) 3,
   (koch_curve_invalid_order 2 1 (0, 0) 0).2 (by decide) 3 (by decide)⟩

/-- `_hex_color(v, default)` from `src/app.py` lines 70-73: the Python code
checks `isinstance(v, str) and len(v) in (4, 7) and v.startswith("#")`.
In this typed embedding `v` is always a `String`; `v.front = '#'` agrees
with Python `v.startswith("#")` on every string (both are false for the
empty string).  Note that the hexadecimal digits are never inspected. -/
def hex_color (v default : String) : String :=
  if (v.length = 4 ∨ v.length = 7) ∧ v.front = '#' then v else default

/-- A hexadecimal digit, 0-9 / a-f / A-F. -/
def hex_digit (c : Char) : Bool :=
  c.isDigit || (('a' ≤ c && c ≤ 'f') || ('A' ≤ c && c ≤ 'F'))

/-- The format claimed by the spec for `c1`/`c2`: `#RGB` or `#RRGGBB`, a
'#' followed by exactly 3 or 6 hexadecimal digits. -/
def hex_format (v : String) : Bool :=
  (v.length == 4 || v.length == 7) && v.front == '#' &&
    (v.toList.drop 1).all hex_digit

def bad_hex : String := "#zzz"
def default_c1 : String := "#67e8f9"
def default_c2 : String := "#f0abfc"

/-- Counterexample to C8: `"#zzz"` is not of format `#RGB` (z is not a
hexadecimal digit), yet `_hex_color` returns it unchanged. -/
theorem hex_color_accepts_nonhex :
    hex_color bad_hex default_c1 = bad_hex ∧ hex_format bad_hex = false := by
  constructor <;> decide

/-- C8 amended: `_hex_color` returns the input unchanged iff it has length 4
or 7 and its first character is '#'; the hexadecimal digits are not checked.
Any other value is replaced by the default. -/
theorem hex_color_format (v d : String) (hvd : v ≠ d) :
    (hex_color v d = v ↔ (v.length = 4 ∨ v.length = 7) ∧ v.front = '#') ∧
    (¬((v.length = 4 ∨ v.length = 7) ∧ v.front = '#') → hex_color v d = d) := by
  unfold hex_color
  by_cases h : (v.length = 4 ∨ v.length = 7) ∧ v.front = '#'
  · rw [if_pos h]
    exact ⟨⟨fun _ => h, fun _ => rfl⟩, fun hc => absurd h hc⟩
  · rw [if_neg h]
    exact ⟨⟨fun hd => absurd hd.symm hvd, fun hc => absurd hc h⟩, fun _ => rfl⟩

/-- Witness for the amended C8 at the non-hex input `"#zzz"`. -/
theorem hex_color_format_witness :
    (hex_color bad_hex default_c1 = bad_hex ↔
      (bad_hex.length = 4 ∨ bad_hex.length = 7) ∧ bad_hex.front = '#') ∧
    (¬((bad_hex.length = 4 ∨ bad_hex.length = 7) ∧ bad_hex.front = '#') →
      hex_color bad_hex default_c1 = default_c1) :=
  hex_color_format bad_hex default_c1 (by decide)

/-- Model of a query-parameter mapping (`request.args`): a field is `none`
when the key is absent; for the numeric parameters the inner `Option` is the
result of Python `int(...)` / `float(...)` parsing (`none` = the parse
raises, caught by the `except` branch of the helper). -/
structure Args where
  fig : Option String
  order : Option (Option ℤ)
  lw : Option (Option ℝ)
  c1 : Option String
  c2 : Option String

/-- `_clamp_int(v, vmin, vmax, default)` from `src/app.py` lines 56-61. -/
def clamp_int (v : Option ℤ) (vmin vmax default : ℤ) : ℤ :=
  match v with
  | some x => max vmin (min vmax x)
  | none => default

/-- `_float_pos(v, default)` from `src/app.py` lines 63-68: clamps the parsed
value to `[0.1, 10.0]`, returns `default` when parsing raises. -/
def float_pos (v : Option ℝ) (default : ℝ) : ℝ :=
  match v with
  | some x => max (1 / 10) (min 10 x)
  | none => default

structure Params where
  fig : String
  order : ℤ
  lw : ℝ
  c1 : String
  c2 : String

def fig_curve : String := "curve"
def fig_two : String := "two"

/-- `_get_params(args)` from `src/app.py` lines 75-81.  An absent key takes
the Python default (`"curve"`, `4`, `1.8`, `"#67e8f9"`, `"#f0abfc"`), all of
which parse successfully. -/
def get_params (a : Args) : Params :=
  { fig := a.fig.getD fig_curve
    order := clamp_int (a.order.getD (some 4)) 0 7 4
    lw := float_pos (a.lw.getD (some (18 / 10))) 1
    c1 := hex_color (a.c1.getD default_c1) default_c1
    c2 := hex_color (a.c2.getD default_c2) default_c2 }

/-- C9: `_get_params` always yields `order ∈ [0, 7]` and `lw ∈ [0.1, 10.0]`;
an unparsable `order` becomes the default 4 and an unparsable `lw` the
default 1.0 (both in range), so the core is only invoked with
`order ∈ [0, 7]`. -/
theorem get_params_order_lw_bounds (a : Args) :
    (0 ≤ (get_params a).order ∧ (get_params a).order ≤ 7) ∧
    (1 / 10 ≤ (get_params a).lw ∧ (get_params a).lw ≤ 10) ∧
    (get_params { a with order := some none }).order = 4 ∧
    (get_params { a with lw := some none }).lw = 1 := by
  refine ⟨?_, ?_, rfl, rfl⟩
  · show 0 ≤ clamp_int (a.order.getD (some 4)) 0 7 4 ∧
      clamp_int (a.order.getD (some 4)) 0 7 4 ≤ 7
    unfold clamp_int
    cases a.order.getD (some 4) with
    | none => exact ⟨by norm_num, by norm_num⟩
    | some x => exact ⟨le_max_left _ _, max_le (by norm_num) (min_le_left _ _)⟩
  · show 1 / 10 ≤ float_pos (a.lw.getD (some (18 / 10))) 1 ∧
      float_pos (a.lw.getD (some (18 / 10))) 1 ≤ 10
    unfold float_pos
    cases a.lw.getD (some (18 / 10)) with
    | none => exact ⟨by norm_num, by norm_num⟩
    | some x => exact ⟨le_max_left _ _, max_le (by norm_num) (min_le_left _ _)⟩

/-- The three figure variants drawn by the `plot` route. -/
inductive Shape
  | curve
  | two
  | snow

/-- The dispatch in `plot` (`src/app.py` lines 108-130):
`if fig == "curve": ... elif fig == "two": ... else: # snow`. -/
def plot_dispatch (fig : String) : Shape :=
  if fig = fig_curve then Shape.curve
  else if fig = fig_two then Shape.two
  else Shape.snow

/-- C10: `fig` is never validated against `{curve, two, snow}`:
`_get_params` passes it through unchanged (defaulting to `"curve"` only when
absent), and any value other than `"curve"` and `"two"` selects the
snowflake branch of `plot`. -/
theorem fig_not_validated (a : Args) (s : String)
    (h1 : s ≠ fig_curve) (h2 : s ≠ fig_two) :
    (get_params a).fig = a.fig.getD fig_curve ∧ plot_dispatch s = Shape.snow := by
  refine ⟨rfl, ?_⟩
  unfold plot_dispatch
  rw [if_neg h1, if_neg h2]

def empty_args : Args := ⟨none, none, none, none, none⟩
def fig_other : String := "banana"

/-- Witness for C10 with no query parameters and the figure `"banana"`. -/
theorem fig_not_validated_witness :
    (get_params empty_args).fig = empty_args.fig.getD fig_curve ∧
    plot_dispatch fig_other = Shape.snow :=
  fig_not_validated empty_args fig_other (by decide) (by decide)

end

end KochApp
